import Mathlib

/-!
Shallow embedding of the grammarbot-rs client library (src/lib.rs).

The library is an HTTP API client: a `Client` holds an API key, a language
code, a base URL and a transport handle, and `check` issues a GET request to
`<base>/v2/check?text=...` and deserializes the JSON body into a `Response`.

External dependencies are modelled at the level the library observes them:
* `reqwest::Url` (the `url` crate, WHATWG URL standard) is modelled by `Url`
  together with `Url.parse` and `Url.join`.  The model keeps scheme, host,
  path, query and the cannot-be-a-base flag; it omits userinfo, port,
  fragment, percent-encoding and path normalisation, which the library never
  exercises.  Parsing of the scheme, of the authority of special schemes, of
  opaque (cannot-be-a-base) paths, and joining of path-absolute references
  follow the standard's basic URL parser.
* the HTTP transport (`reqwest::Client::send`) is modelled by an explicit
  function argument `send : HttpRequest -> Except TransportError Body`
  standing for the network; the body of a successful exchange is either a
  well-formed JSON document (given as its value tree) or malformed text.
* serde deserialization of the response schema is modelled by decoders that
  read the same wire field names (camelCase, as produced by the
  `#[serde(rename_all = "camelCase")]` attributes) and fail on a missing
  required field or a wrong-typed value, in declaration order, as the
  derived serde implementations do.
-/

namespace Grammarbot

/-- Errors of `url::Url::parse` and `url::Url::join` (`reqwest::UrlError`)
that the modelled input classes can produce. -/
inductive UrlError where
  | RelativeUrlWithoutBase
  | RelativeUrlWithCannotBeABaseBase
  | EmptyHost
deriving DecidableEq, Repr

/-- A parsed absolute URL (model of `reqwest::Url`).  `cannotBeABase` is true
for URLs with an opaque path such as `mailto:user@host`. -/
structure Url where
  scheme : String
  host : Option String
  path : String
  query : Option String
  cannotBeABase : Bool
deriving DecidableEq, Repr

/-- Schemes the WHATWG standard calls special. -/
def specialSchemes : List String := ["http", "https", "ws", "wss", "ftp", "file"]

/-- First character a scheme may start with. -/
def isSchemeStart (c : Char) : Bool := c.isAlpha

/-- Characters a scheme may continue with. -/
def isSchemeChar (c : Char) : Bool := c.isAlphanum || c = '+' || c = '-' || c = '.'

/-- Scheme parsing: returns the (lowercased) scheme and the remainder after
the colon, or `none` when the input has no scheme prefix. -/
def takeScheme (acc : List Char) : List Char → Option (List Char × List Char)
  | [] => none
  | c :: rest =>
    if c = ':' then
      if acc.isEmpty then none else some (acc.reverse, rest)
    else if (if acc.isEmpty then isSchemeStart c else isSchemeChar c) then
      takeScheme (c :: acc) rest
    else none

/-- Splits a path-and-query remainder at the first `?`. -/
def parsePathQuery (cs : List Char) : String × Option String :=
  let p := cs.takeWhile (fun c => c ≠ '?')
  let rest := cs.dropWhile (fun c => c ≠ '?')
  match rest with
  | [] => (String.mk p, none)
  | _ :: q => (String.mk p, some (String.mk q))

/-- Splits an authority remainder into host characters and the rest. -/
def splitHost (cs : List Char) : List Char × List Char :=
  (cs.takeWhile (fun c => c ≠ '/' && c ≠ '?'), cs.dropWhile (fun c => c ≠ '/' && c ≠ '?'))

/-- Model of `url::Url::parse` (`reqwest::Url::parse`): parses a string as an
absolute URL.  A string without a scheme prefix (for example the empty
string, or any string without a colon) fails with `RelativeUrlWithoutBase`;
a special scheme with an empty host fails with `EmptyHost`; a non-special
scheme whose remainder does not start with a slash yields a
cannot-be-a-base URL with an opaque path. -/
def Url.parse (s : String) : Except UrlError Url :=
  match takeScheme [] s.toList with
  | none => .error .RelativeUrlWithoutBase
  | some (schemeCs, rest) =>
    let scheme := String.mk (schemeCs.map Char.toLower)
    if specialSchemes.contains scheme then
      let afterSlashes := rest.dropWhile (fun c => c = '/' || c = '\\')
      let (hostCs, hrest) := splitHost afterSlashes
      if hostCs.isEmpty then .error .EmptyHost
      else
        let (path, query) := parsePathQuery hrest
        .ok { scheme := scheme, host := some (String.mk hostCs),
              path := if path = "" then "/" else path,
              query := query, cannotBeABase := false }
    else
      match rest with
      | '/' :: '/' :: rest2 =>
        let (hostCs, hrest) := splitHost rest2
        let (path, query) := parsePathQuery hrest
        .ok { scheme := scheme, host := some (String.mk hostCs),
              path := path, query := query, cannotBeABase := false }
      | '/' :: rest2 =>
        let (path, query) := parsePathQuery ('/' :: rest2)
        .ok { scheme := scheme, host := none, path := path,
              query := query, cannotBeABase := false }
      | rest2 =>
        let (path, query) := parsePathQuery rest2
        .ok { scheme := scheme, host := none, path := path,
              query := query, cannotBeABase := true }

/-- Directory part of a path: everything up to and including the last slash. -/
def dirOf (path : String) : String :=
  String.mk ((path.toList.reverse.dropWhile (fun c => c ≠ '/')).reverse)

/-- Model of `url::Url::join` (`reqwest::Url::join`): parses `input` against
the base `b`.  An input with its own scheme is parsed as absolute; otherwise
a cannot-be-a-base base fails with `RelativeUrlWithCannotBeABaseBase`
(unless the input is fragment-only); a `//` input replaces the authority; a
path-absolute input (such as `/v2/check`) replaces the path and query; a
relative path is merged onto the base's directory. -/
def Url.join (b : Url) (input : String) : Except UrlError Url :=
  match takeScheme [] input.toList with
  | some _ => Url.parse input
  | none =>
    if b.cannotBeABase then
      match input.toList with
      | '#' :: _ => .ok b
      | _ => .error .RelativeUrlWithCannotBeABaseBase
    else
      match input.toList with
      | '/' :: '/' :: rest2 =>
        let (hostCs, hrest) := splitHost rest2
        let (path, query) := parsePathQuery hrest
        .ok { scheme := b.scheme, host := some (String.mk hostCs),
              path := path, query := query, cannotBeABase := false }
      | '/' :: rest2 =>
        let (path, query) := parsePathQuery ('/' :: rest2)
        .ok { b with path := path, query := query }
      | [] => .ok b
      | rest2 =>
        let (path, query) := parsePathQuery rest2
        .ok { b with path := dirOf b.path ++ path, query := query }

/-- URL value of the client's default base `http://api.grammarbot.io`. -/
def defaultBase : Url :=
  { scheme := "http", host := some "api.grammarbot.io", path := "/",
    query := none, cannotBeABase := false }

/-- URL value of `defaultBase` joined with the fixed path `/v2/check`. -/
def defaultCheckUrl : Url :=
  { scheme := "http", host := some "api.grammarbot.io", path := "/v2/check",
    query := none, cannotBeABase := false }

/-! JSON model.  Numbers are modelled as integers: every numeric field of the
response schema (`api_version: u8`, `offset: u32`, `length: u32`) rejects
non-integral values anyway. -/

/-- A JSON value tree. -/
inductive Json where
  | null
  | bool (b : Bool)
  | num (n : Int)
  | str (s : String)
  | arr (elems : List Json)
  | obj (fields : List (String × Json))

/-- A response body as seen by `reqwest::Response::json`: either a
well-formed JSON document or malformed text. -/
inductive Body where
  | json (j : Json)
  | malformed (raw : String)

/-- Deserialization errors (the serde error wrapped into the library's
`InvalidJSON` variant). -/
inductive JsonError where
  | syntaxError
  | missingField (name : String)
  | invalidType (expected : String)
deriving DecidableEq, Repr

/-! Response schema, mirroring `pub mod types` and `Response` in src/lib.rs.
Wire names are camelCase per `#[serde(rename_all = "camelCase")]`. -/

/-- Model of `types::Software`. -/
structure Software where
  name : String
  version : String
  api_version : Nat
  premium : Bool
  premium_hint : String
  status : String

/-- Model of `types::Warnings`. -/
structure Warnings where
  incomplete_results : Bool

/-- Model of `types::DetectedLanguage`. -/
structure DetectedLanguage where
  name : String
  code : String

/-- Model of `types::Language`. -/
structure Language where
  name : String
  code : String
  detected_language : DetectedLanguage

/-- Model of `types::Replacement`. -/
structure Replacement where
  value : String

/-- Model of `types::Context`. -/
structure Context where
  text : String
  offset : Nat
  length : Nat

/-- Model of `types::Type` (named `MatchType` here since `Type` is reserved
in Lean); the source struct holds a single `type_name` field. -/
structure MatchType where
  type_name : String

/-- Model of `types::Category`. -/
structure Category where
  id : String
  name : String

/-- Model of `types::Rule`. -/
structure Rule where
  id : String
  description : String
  issue_type : String
  category : Category

/-- Model of `types::Match`; the source field `r#type` is named `type` on
the wire. -/
structure Match where
  message : String
  short_message : String
  replacements : List Replacement
  offset : Nat
  length : Nat
  context : Context
  sentence : String
  rtype : MatchType
  rule : Rule

/-- Model of `Response`, the typed representation of the JSON response. -/
structure Response where
  software : Software
  warnings : Warnings
  language : Language
  «matches» : List Match

/-! Decoders, modelling the derived serde `Deserialize` implementations:
each struct is read from a JSON map; a non-map value is an invalid-type
error; after reading, a missing required field is reported in declaration
order; unknown fields are ignored (serde's default). -/

/-- Looks up a required field of a JSON map. -/
def getField (fields : List (String × Json)) (name : String) : Except JsonError Json :=
  match fields.lookup name with
  | some v => .ok v
  | none => .error (.missingField name)

/-- Requires a JSON map. -/
def asObj : Json → Except JsonError (List (String × Json))
  | .obj fields => .ok fields
  | _ => .error (.invalidType "map")

/-- Decodes a JSON string. -/
def decodeString : Json → Except JsonError String
  | .str s => .ok s
  | _ => .error (.invalidType "string")

/-- Decodes a JSON boolean. -/
def decodeBool : Json → Except JsonError Bool
  | .bool b => .ok b
  | _ => .error (.invalidType "bool")

/-- Decodes a `u8` field. -/
def decodeU8 : Json → Except JsonError Nat
  | .num n => if 0 ≤ n ∧ n < 256 then .ok n.toNat else .error (.invalidType "u8")
  | _ => .error (.invalidType "u8")

/-- Decodes a `u32` field. -/
def decodeU32 : Json → Except JsonError Nat
  | .num n => if 0 ≤ n ∧ n < 4294967296 then .ok n.toNat else .error (.invalidType "u32")
  | _ => .error (.invalidType "u32")

/-- Decodes a JSON array elementwise. -/
def decodeList (dec : Json → Except JsonError α) : List Json → Except JsonError (List α)
  | [] => .ok []
  | j :: rest => do
    let a ← dec j
    let as ← decodeList dec rest
    pure (a :: as)

/-- Decodes a `Vec<T>` field. -/
def decodeArr (dec : Json → Except JsonError α) : Json → Except JsonError (List α)
  | .arr elems => decodeList dec elems
  | _ => .error (.invalidType "sequence")

/-- Decoder of `types::Software`. -/
def decodeSoftware (j : Json) : Except JsonError Software := do
  let fields ← asObj j
  let name ← decodeString (← getField fields "name")
  let version ← decodeString (← getField fields "version")
  let api_version ← decodeU8 (← getField fields "apiVersion")
  let premium ← decodeBool (← getField fields "premium")
  let premium_hint ← decodeString (← getField fields "premiumHint")
  let status ← decodeString (← getField fields "status")
  pure { name, version, api_version, premium, premium_hint, status }

/-- Decoder of `types::Warnings`. -/
def decodeWarnings (j : Json) : Except JsonError Warnings := do
  let fields ← asObj j
  let incomplete_results ← decodeBool (← getField fields "incompleteResults")
  pure { incomplete_results }

/-- Decoder of `types::DetectedLanguage`. -/
def decodeDetectedLanguage (j : Json) : Except JsonError DetectedLanguage := do
  let fields ← asObj j
  let name ← decodeString (← getField fields "name")
  let code ← decodeString (← getField fields "code")
  pure { name, code }

/-- Decoder of `types::Language`. -/
def decodeLanguage (j : Json) : Except JsonError Language := do
  let fields ← asObj j
  let name ← decodeString (← getField fields "name")
  let code ← decodeString (← getField fields "code")
  let detected_language ← decodeDetectedLanguage (← getField fields "detectedLanguage")
  pure { name, code, detected_language }

/-- Decoder of `types::Replacement`. -/
def decodeReplacement (j : Json) : Except JsonError Replacement := do
  let fields ← asObj j
  let value ← decodeString (← getField fields "value")
  pure { value }

/-- Decoder of `types::Context`. -/
def decodeContext (j : Json) : Except JsonError Context := do
  let fields ← asObj j
  let text ← decodeString (← getField fields "text")
  let offset ← decodeU32 (← getField fields "offset")
  let length ← decodeU32 (← getField fields "length")
  pure { text, offset, length }

/-- Decoder of `types::Type`. -/
def decodeMatchType (j : Json) : Except JsonError MatchType := do
  let fields ← asObj j
  let type_name ← decodeString (← getField fields "typeName")
  pure { type_name }

/-- Decoder of `types::Category`. -/
def decodeCategory (j : Json) : Except JsonError Category := do
  let fields ← asObj j
  let id ← decodeString (← getField fields "id")
  let name ← decodeString (← getField fields "name")
  pure { id, name }

/-- Decoder of `types::Rule`. -/
def decodeRule (j : Json) : Except JsonError Rule := do
  let fields ← asObj j
  let id ← decodeString (← getField fields "id")
  let description ← decodeString (← getField fields "description")
  let issue_type ← decodeString (← getField fields "issueType")
  let category ← decodeCategory (← getField fields "category")
  pure { id, description, issue_type, category }

/-- Decoder of `types::Match`. -/
def decodeMatch (j : Json) : Except JsonError Match := do
  let fields ← asObj j
  let message ← decodeString (← getField fields "message")
  let short_message ← decodeString (← getField fields "shortMessage")
  let replacements ← decodeArr decodeReplacement (← getField fields "replacements")
  let offset ← decodeU32 (← getField fields "offset")
  let length ← decodeU32 (← getField fields "length")
  let context ← decodeContext (← getField fields "context")
  let sentence ← decodeString (← getField fields "sentence")
  let rtype ← decodeMatchType (← getField fields "type")
  let rule ← decodeRule (← getField fields "rule")
  pure { message, short_message, replacements, offset, length, context,
         sentence, rtype, rule }

/-- Decoder of `Response` (this struct has no `rename_all` attribute, so its
wire names are the field names themselves). -/
def decodeResponse (j : Json) : Except JsonError Response := do
  let fields ← asObj j
  let software ← decodeSoftware (← getField fields "software")
  let warnings ← decodeWarnings (← getField fields "warnings")
  let language ← decodeLanguage (← getField fields "language")
  let ms ← decodeArr decodeMatch (← getField fields "matches")
  pure { software, warnings, language, «matches» := ms }

/-- Deserialization of a body, as performed by `reqwest::Response::json`
with the `Response` schema. -/
def deserialize : Body → Except JsonError Response
  | .malformed _ => .error .syntaxError
  | .json j => decodeResponse j

/-! HTTP layer and the client. -/

/-- HTTP methods (model of `reqwest::Method`; the library only uses GET). -/
inductive Method where
  | GET
  | POST
  | PUT
  | HEAD
deriving DecidableEq, Repr

/-- An outbound HTTP request as built by `Client::request`: the method, the
URL obtained by joining the base with the path, and the query pairs attached
by `RequestBuilder::query`. -/
structure HttpRequest where
  method : Method
  url : Url
  query : List (String × String)

/-- A transport-level error from `reqwest` (DNS failure, connection refused,
timeout, ...), kept opaque up to its display message. -/
structure TransportError where
  msg : String
deriving DecidableEq, Repr

/-- Model of the library's `Error` enum (src/lib.rs): one variant per
failure kind, each carrying the nested source error. -/
inductive Error where
  | RequestFailed (source : TransportError)
  | InvalidUrl (source : UrlError)
  | InvalidJSON (source : JsonError)

/-- The network as observed through the transport handle: what one exchange
of a request yields.  `reqwest::Client::send` blocking and returning
`Result<Response, reqwest::Error>` is modelled by this function returning
the response body or a transport error. -/
def Transport : Type := HttpRequest → Except TransportError Body

/-- Model of `Client` (src/lib.rs): api_key, language, base URL and the
transport handle (`reqwest::Client`, which holds no observable state and is
modelled by `Unit`). -/
structure Client where
  api_key : String
  language : String
  base : Url
  client : Unit

/-- Model of `Client::new`: stores the key, language `"en-US"` and the
parsed default base URL.  The source unwraps
`reqwest::Url::parse("http://api.grammarbot.io")`; the unwrap is modelled by
`Option.get`, whose proof obligation shows the parse (and hence `new`)
always succeeds and never panics.  No transport activity is involved. -/
def Client.new (api_key : String) : Client :=
  { api_key := api_key
    language := "en-US"
    base := ((Url.parse "http://api.grammarbot.io").toOption).get (by decide)
    client := () }

/-- Model of `Client::api_key` (the setter; named `set_api_key` because Lean
cannot reuse the field's name): overwrites the stored key and returns
`&mut self`, i.e. the updated client. -/
def Client.set_api_key (c : Client) (api_key : String) : Client :=
  { c with api_key := api_key }

/-- Model of `Client::language` (the setter): overwrites the stored language
and returns the updated client. -/
def Client.set_language (c : Client) (language : String) : Client :=
  { c with language := language }

/-- Model of `Client::base` (the setter): parses the string; on success
stores the parsed URL.  The returned pair is the Rust
`Result<&mut Self, Error>` together with the post-state of `self`: on parse
failure the `?` operator returns the `InvalidUrl` error before any
assignment, so the post-state is the unchanged client. -/
def Client.set_base (c : Client) (base : String) : Except Error Client × Client :=
  match Url.parse base with
  | .error e => (.error (.InvalidUrl e), c)
  | .ok u =>
    let c2 := { c with base := u }
    (.ok c2, c2)

/-- Model of `Client::request`: joins the base with the path (an error there
becomes `InvalidUrl`), attaches the query pairs, and performs the exchange
through the transport (an error there becomes `RequestFailed`). -/
def Client.request (c : Client) (send : Transport) (method : Method)
    (path : String) (query : List (String × String)) : Except Error Body :=
  match Url.join c.base path with
  | .error e => .error (.InvalidUrl e)
  | .ok u =>
    match send { method := method, url := u, query := query } with
    | .error te => .error (.RequestFailed te)
    | .ok b => .ok b

/-- Model of `Client::check`: a GET request to the fixed path `/v2/check`
with the single query pair `("text", text)`, then deserialization of the
body (an error there becomes `InvalidJSON`). -/
def Client.check (c : Client) (send : Transport) (text : String) :
    Except Error Response :=
  match Client.request c send .GET "/v2/check" [("text", text)] with
  | .error e => .error e
  | .ok b =>
    match deserialize b with
    | .error je => .error (.InvalidJSON je)
    | .ok r => .ok r

/-- Clients reachable through the public constructor and setters.  `check`
takes `&self` and cannot mutate the client, so it induces no transition. -/
inductive Reachable : Client → Prop where
  | new (k : String) : Reachable (Client.new k)
  | set_api_key {c : Client} (k : String) :
      Reachable c → Reachable (Client.set_api_key c k)
  | set_language {c : Client} (l : String) :
      Reachable c → Reachable (Client.set_language c l)
  | set_base {c : Client} (s : String) :
      Reachable c → Reachable (Client.set_base c s).2

/-- Continuation of `check` after the request has been built: what `check`
yields once the transport's answer to a given request is known. -/
def sendAndDecode (send : Transport) (req : HttpRequest) : Except Error Response :=
  match send req with
  | .error te => .error (.RequestFailed te)
  | .ok b =>
    match deserialize b with
    | .error je => .error (.InvalidJSON je)
    | .ok r => .ok r

/-- A transport whose every exchange succeeds with the empty JSON object. -/
def sendEmptyObj : Transport := fun _ => .ok (.json (Json.obj []))

/-- A transport whose every exchange fails at the network level. -/
def sendRefused : Transport := fun _ => .error { msg := "connection refused" }

/-- URL value of `http://pro.grammarbot.io`. -/
def proBase : Url :=
  { scheme := "http", host := some "pro.grammarbot.io", path := "/",
    query := none, cannotBeABase := false }

/-- URL value of `http://pro.grammarbot.io` joined with `/v2/check`. -/
def proCheckUrl : Url :=
  { scheme := "http", host := some "pro.grammarbot.io", path := "/v2/check",
    query := none, cannotBeABase := false }

/-- Client obtained from `new` followed by `set_base` with a
cannot-be-a-base absolute URL (the `set_base` call succeeds). -/
def mailtoClient : Client :=
  (Client.set_base (Client.new "key") "mailto:foo@bar").2

/-! Theorems. -/

/-- Joining any non-cannot-be-a-base URL with the fixed path `/v2/check`
succeeds and replaces the path and query. -/
theorem join_v2check (b : Url) (hb : b.cannotBeABase = false) :
    Url.join b "/v2/check" = .ok { b with path := "/v2/check", query := none } := by
  obtain ⟨sc, ho, pa, qu, cb⟩ := b
  change cb = false at hb
  subst hb
  rfl

/-- Factoring of `check` through the request it builds: once the join of
the base with `/v2/check` is known, `check` is the transport exchange of
the GET request carrying the single `text` query pair, followed by
deserialization. -/
theorem check_eq_sendAndDecode (c : Client) (send : Transport) (text : String)
    (u : Url) (h : Url.join c.base "/v2/check" = .ok u) :
    Client.check c send text =
      sendAndDecode send { method := .GET, url := u, query := [("text", text)] } := by
  cases hs : send { method := .GET, url := u, query := [("text", text)] } with
  | error te =>
    simp [Client.check, Client.request, sendAndDecode, h, hs]
  | ok b =>
    cases hd : deserialize b with
    | error je => simp [Client.check, Client.request, sendAndDecode, h, hs, hd]
    | ok r => simp [Client.check, Client.request, sendAndDecode, h, hs, hd]

/-- C1: for every input text and client state, `check` builds a GET request
against the stored base URL joined with the fixed relative path `/v2/check`,
attaching exactly one query parameter `text=<input text>`; the stored API
key and language are held in the client but never included in the outbound
request (varying them does not change the outcome of `check`). -/
theorem check_builds_get_with_text_only (c : Client) (send : Transport)
    (text : String) (u : Url) (h : Url.join c.base "/v2/check" = .ok u) :
    Client.check c send text =
      sendAndDecode send { method := .GET, url := u, query := [("text", text)] } ∧
    ∀ k l : String,
      Client.check { c with api_key := k, language := l } send text =
        Client.check c send text := by
  refine ⟨check_eq_sendAndDecode c send text u h, ?_⟩
  intro k l
  rfl

/-- Witness for C1 at the freshly constructed client: its base joined with
`/v2/check` is the default check URL and the factoring holds there. -/
theorem check_builds_get_with_text_only_witness :
    Client.check (Client.new "key") sendEmptyObj "hi" =
      sendAndDecode sendEmptyObj
        { method := .GET, url := defaultCheckUrl, query := [("text", "hi")] } ∧
    ∀ k l : String,
      Client.check { Client.new "key" with api_key := k, language := l }
          sendEmptyObj "hi" =
        Client.check (Client.new "key") sendEmptyObj "hi" :=
  check_builds_get_with_text_only (Client.new "key") sendEmptyObj "hi"
    defaultCheckUrl rfl

/-- C2: for every client state and every string that does not parse as an
absolute URL, `set_base` returns an `InvalidUrl` error carrying the parse
error, and the client's entire prior state is left unchanged. -/
theorem set_base_invalid_url (c : Client) (s : String) (e : UrlError)
    (h : Url.parse s = .error e) :
    Client.set_base c s = (.error (.InvalidUrl e), c) := by
  unfold Client.set_base
  rw [h]

/-- Witness for C2 at the empty string, which fails to parse with
`RelativeUrlWithoutBase`: the post-state is the untouched client. -/
theorem set_base_invalid_url_witness :
    Client.set_base (Client.new "key") "" =
      (.error (.InvalidUrl .RelativeUrlWithoutBase), Client.new "key") :=
  set_base_invalid_url (Client.new "key") "" .RelativeUrlWithoutBase rfl

/-- C3: the stored base URL of every reachable client is the successful
parse of some URL string — the invariant holds after `new` and is preserved
by `set_api_key`, `set_language` and `set_base` (which replaces the base
only on a successful parse); `check` takes the client immutably. -/
theorem reachable_base_parses (c : Client) (h : Reachable c) :
    ∃ s, Url.parse s = .ok c.base := by
  induction h with
  | new k => exact ⟨"http://api.grammarbot.io", rfl⟩
  | set_api_key k _ ih => exact ih
  | set_language l _ ih => exact ih
  | set_base s _ ih =>
    cases hp : Url.parse s with
    | error e => simpa [Client.set_base, hp] using ih
    | ok u =>
      refine ⟨s, ?_⟩
      simp [Client.set_base, hp]

/-- Witness for C3 at the freshly constructed client. -/
theorem reachable_base_parses_witness :
    ∃ s, Url.parse s = .ok (Client.new "key").base :=
  reachable_base_parses (Client.new "key") (Reachable.new "key")

/-- C4: `new` always succeeds for every api_key — the unwrap of the default
base URL parse cannot panic, because the parse succeeds — and the resulting
client stores the given key, the language `"en-US"` and the base
`http://api.grammarbot.io`; the model involves no transport activity. -/
theorem new_always_succeeds (k : String) :
    Url.parse "http://api.grammarbot.io" = .ok defaultBase ∧
    Client.new k =
      { api_key := k, language := "en-US", base := defaultBase, client := () } :=
  ⟨rfl, rfl⟩

/-- C5: whenever the transport exchange succeeds but the body does not
conform to the `Response` schema (malformed JSON, wrong-typed or missing
field), `check` fails with `InvalidJSON` wrapping the underlying parse
error; no `Response` value is produced. -/
theorem check_invalid_json (c : Client) (send : Transport) (text : String)
    (u : Url) (body : Body) (je : JsonError)
    (h1 : Url.join c.base "/v2/check" = .ok u)
    (h2 : send { method := .GET, url := u, query := [("text", text)] } = .ok body)
    (h3 : deserialize body = .error je) :
    Client.check c send text = .error (.InvalidJSON je) := by
  rw [check_eq_sendAndDecode c send text u h1]
  simp [sendAndDecode, h2, h3]

/-- Witness for C5: a body that is the empty JSON object is missing the
required `software` field, and `check` reports exactly that. -/
theorem check_invalid_json_witness :
    Client.check (Client.new "key") sendEmptyObj "hi" =
      .error (.InvalidJSON (.missingField "software")) :=
  check_invalid_json (Client.new "key") sendEmptyObj "hi" defaultCheckUrl
    (.json (Json.obj [])) (.missingField "software") rfl rfl rfl

/-- C6: whenever the transport cannot complete the exchange, `check` fails
with `RequestFailed` wrapping the underlying transport error; no `Response`
value is produced. -/
theorem check_request_failed (c : Client) (send : Transport) (text : String)
    (u : Url) (te : TransportError)
    (h1 : Url.join c.base "/v2/check" = .ok u)
    (h2 : send { method := .GET, url := u, query := [("text", text)] } = .error te) :
    Client.check c send text = .error (.RequestFailed te) := by
  rw [check_eq_sendAndDecode c send text u h1]
  simp [sendAndDecode, h2]

/-- Witness for C6 at a transport that refuses every connection. -/
theorem check_request_failed_witness :
    Client.check (Client.new "key") sendRefused "hi" =
      .error (.RequestFailed { msg := "connection refused" }) :=
  check_request_failed (Client.new "key") sendRefused "hi" defaultCheckUrl
    { msg := "connection refused" } rfl rfl

/-- C7: for every client state and every argument string (the empty string
included), `set_api_key` and `set_language` always succeed, overwrite the
stored value with exactly the argument (the last call wins), validate
nothing, and return the client for chaining. -/
theorem setters_total_overwrite (c : Client) (k l : String) :
    Client.set_api_key c k = { c with api_key := k } ∧
    Client.set_language c l = { c with language := l } ∧
    (∀ k2, Client.set_api_key (Client.set_api_key c k) k2 = Client.set_api_key c k2) ∧
    (∀ l2, Client.set_language (Client.set_language c l) l2 = Client.set_language c l2) :=
  ⟨rfl, rfl, fun _ => rfl, fun _ => rfl⟩

/-- C8: for every string that parses as a valid absolute URL, `set_base`
succeeds, replaces the stored base with the parsed URL, returns the updated
client, and every subsequent `check` on that client targets the new base:
its request URL is the new base joined with `/v2/check`. -/
theorem set_base_valid_targets_new_base (c : Client) (s : String) (u : Url)
    (h : Url.parse s = .ok u) :
    Client.set_base c s = (.ok { c with base := u }, { c with base := u }) ∧
    ∀ (send : Transport) (text : String) (u2 : Url),
      Url.join u "/v2/check" = .ok u2 →
      Client.check { c with base := u } send text =
        sendAndDecode send { method := .GET, url := u2, query := [("text", text)] } := by
  constructor
  · unfold Client.set_base
    rw [h]
  · intro send text u2 h2
    exact check_eq_sendAndDecode { c with base := u } send text u2 h2

/-- Witness for C8: retargeting the fresh client at
`http://pro.grammarbot.io` succeeds and a subsequent `check` sends its GET
request to that base joined with `/v2/check`. -/
theorem set_base_valid_targets_new_base_witness :
    Client.set_base (Client.new "key") "http://pro.grammarbot.io" =
      (.ok { Client.new "key" with base := proBase },
       { Client.new "key" with base := proBase }) ∧
    Client.check { Client.new "key" with base := proBase } sendEmptyObj "hi" =
      sendAndDecode sendEmptyObj
        { method := .GET, url := proCheckUrl, query := [("text", "hi")] } := by
  have h := set_base_valid_targets_new_base (Client.new "key")
    "http://pro.grammarbot.io" proBase rfl
  exact ⟨h.1, h.2 sendEmptyObj "hi" proCheckUrl rfl⟩

/-- C9 counterexample: the claim that `check` never returns `InvalidUrl`
from a reachable state fails.  `mailtoClient` is reachable — `set_base`
accepts `mailto:foo@bar`, a valid absolute URL — yet `check` on it returns
`InvalidUrl`, because joining a cannot-be-a-base URL with `/v2/check`
fails. -/
theorem check_invalid_url_reachable_cex :
    Reachable mailtoClient ∧
    Client.check mailtoClient sendEmptyObj "hello" =
      .error (.InvalidUrl .RelativeUrlWithCannotBeABaseBase) :=
  ⟨Reachable.set_base "mailto:foo@bar" (Reachable.new "key"), rfl⟩

/-- C9 amended: for every client whose stored base URL is not
cannot-be-a-base (every http or https base, in particular the default and
anything with an authority), the internal join with `/v2/check` cannot
fail, so `check` never returns an `InvalidUrl` error there — its only
error kinds are `RequestFailed` and `InvalidJSON`. -/
theorem check_no_invalid_url_of_hierarchical (c : Client) (send : Transport)
    (text : String) (hb : c.base.cannotBeABase = false) (e : UrlError) :
    Client.check c send text ≠ .error (.InvalidUrl e) := by
  rw [check_eq_sendAndDecode c send text _ (join_v2check c.base hb)]
  unfold sendAndDecode
  cases send { method := .GET, url := { c.base with path := "/v2/check", query := none },
               query := [("text", text)] } with
  | error te => simp
  | ok b => cases hd : deserialize b <;> simp [hd]

/-- Witness for the amended C9 at the fresh client, whose base is
hierarchical. -/
theorem check_no_invalid_url_of_hierarchical_witness :
    Client.check (Client.new "key") sendEmptyObj "hi" ≠
      .error (.InvalidUrl .EmptyHost) :=
  check_no_invalid_url_of_hierarchical (Client.new "key") sendEmptyObj "hi"
    rfl .EmptyHost

/-- C10: each setter mutates only its own field — `set_api_key` leaves the
language and base unchanged, `set_language` leaves the key and base
unchanged, and `set_base` (on success) leaves the key and language
unchanged. -/
theorem setters_frame (c : Client) (k l s : String) :
    (Client.set_api_key c k).language = c.language ∧
    (Client.set_api_key c k).base = c.base ∧
    (Client.set_language c l).api_key = c.api_key ∧
    (Client.set_language c l).base = c.base ∧
    ∀ c2, (Client.set_base c s).1 = .ok c2 →
      c2.api_key = c.api_key ∧ c2.language = c.language := by
  refine ⟨rfl, rfl, rfl, rfl, ?_⟩
  intro c2 h
  cases hp : Url.parse s with
  | error e => simp [Client.set_base, hp] at h
  | ok u =>
    simp [Client.set_base, hp] at h
    subst h
    exact ⟨rfl, rfl⟩

/-- Witness for C10: a successful `set_base` on the fresh client keeps its
key and language. -/
theorem setters_frame_witness :
    ({ Client.new "key" with base := proBase } : Client).api_key =
      (Client.new "key").api_key ∧
    ({ Client.new "key" with base := proBase } : Client).language =
      (Client.new "key").language :=
  (setters_frame (Client.new "key") "k2" "fr" "http://pro.grammarbot.io").2.2.2.2
    { Client.new "key" with base := proBase } rfl

end Grammarbot
